import Mathlib

/-!
Shallow embedding of the shared-memory single-producer/single-consumer ring
buffer implemented in `src/common/rbuf/src/main.rs`, together with proofs of
the behavioural properties stated in the accompanying design document.

Modelling conventions:
* `usize` values are natural numbers; every arithmetic step the Rust code
  performs on a `usize` is taken modulo `USIZE = 2 ^ 64` (release-build
  wrapping semantics) exactly where the code performs it.
* The shared slot array (`capacity` cells of `MaybeUninit<T>`) is a
  `List (Option T)`; `none` stands for uninitialised cell contents.
* The OS shared-memory calls themselves (`ShmemConf::create` / `open`) are
  outside the embedding: `Consumer.create` models the buffer state that
  results once the segment allocation has succeeded, which is what every
  claim about a "freshly created buffer" presupposes.
* The atomic-ordering annotations on the five atomic accesses in
  `Producer::push` and `Consumer::pop` are embedded as data
  (`MemOrdering` constants), one per access, read off the source lines.
-/

namespace RBuf

/-- The number of values of the 64-bit machine word `usize`; Rust release
builds wrap `usize` arithmetic modulo this constant. -/
def USIZE : Nat := 2 ^ 64

/-- `mem::size_of::<RingBufferHeader>()`: the header is `repr(C)` with
fields `head : AtomicUsize`, `tail : AtomicUsize`, `capacity : usize`,
three 8-byte words on a 64-bit platform. -/
def headerSize : Nat := 24

/-- The shared state reachable through a `ShmemRingBuffer<T>` handle:
the `RingBufferHeader` fields (`head`, `tail`, `capacity`) plus the slot
array of `capacity` cells of `MaybeUninit<T>` that follows the header. -/
structure RingBuffer (T : Type) where
  head : Nat
  tail : Nat
  capacity : Nat
  slots : List (Option T)
deriving DecidableEq, Repr

/-- `Producer::push` (main.rs lines 75-93): load `head` and `tail`, compute
`next_tail = (tail + 1) % capacity`; if `next_tail == head` return
`Err(item)` leaving the state untouched, otherwise write `item` into slot
`tail` and store `tail = next_tail`. Returns the `Result` paired with the
updated shared state. -/
def Producer.push {T : Type} (rb : RingBuffer T) (item : T) :
    Except T Unit × RingBuffer T :=
  let head := rb.head
  let tail := rb.tail
  let nextTail := (tail + 1) % USIZE % rb.capacity
  if nextTail = head then
    (Except.error item, rb)
  else
    (Except.ok (),
      { rb with slots := rb.slots.set tail (some item), tail := nextTail })

/-- `Consumer::pop` (main.rs lines 132-149): load `head` and `tail`; if
`head == tail` return `None` leaving the state untouched, otherwise read
the record from slot `head` and store `head = (head + 1) % capacity`.
Returns the `Option` paired with the updated shared state. -/
def Consumer.pop {T : Type} (rb : RingBuffer T) : Option T × RingBuffer T :=
  let head := rb.head
  let tail := rb.tail
  if head = tail then
    (none, rb)
  else
    (rb.slots.getD head none,
      { rb with head := (head + 1) % USIZE % rb.capacity })

/-- `let real_capacity = capacity + 1;` (main.rs line 101), a `usize`
addition, hence taken modulo `USIZE`. -/
def realCapacity (capacity : Nat) : Nat := (capacity + 1) % USIZE

/-- `mem::size_of::<RingBufferHeader>() + real_capacity * mem::size_of::<T>()`
(main.rs lines 102-103), `usize` arithmetic. -/
def shmemSize (capacity recordSize : Nat) : Nat :=
  (headerSize + realCapacity capacity * recordSize % USIZE) % USIZE

/-- `Consumer::create` (main.rs lines 99-120): compute
`real_capacity = capacity + 1`, allocate the segment, and initialise the
header in place with `head = 0`, `tail = 0`, `capacity = real_capacity`;
the slot array starts uninitialised. -/
def Consumer.create (T : Type) (capacity : Nat) : RingBuffer T :=
  { head := 0
    tail := 0
    capacity := realCapacity capacity
    slots := List.replicate (realCapacity capacity) none }

/-- The three memory orderings used by the source. -/
inductive MemOrdering where
  | relaxed
  | acquire
  | release
deriving DecidableEq, Repr

/-- `header.head.load(Ordering::Relaxed)` in `Producer::push`, main.rs line 77. -/
def pushHeadLoadOrdering : MemOrdering := MemOrdering.relaxed

/-- `header.tail.load(Ordering::Acquire)` in `Producer::push`, main.rs line 78. -/
def pushTailLoadOrdering : MemOrdering := MemOrdering.acquire

/-- `header.tail.store(next_tail, Ordering::Release)` in `Producer::push`, main.rs line 91. -/
def pushTailStoreOrdering : MemOrdering := MemOrdering.release

/-- `header.head.load(Ordering::Relaxed)` in `Consumer::pop`, main.rs line 134. -/
def popHeadLoadOrdering : MemOrdering := MemOrdering.relaxed

/-- `header.tail.load(Ordering::Acquire)` in `Consumer::pop`, main.rs line 135. -/
def popTailLoadOrdering : MemOrdering := MemOrdering.acquire

/-- `header.head.store(..., Ordering::Release)` in `Consumer::pop`, main.rs line 147. -/
def popHeadStoreOrdering : MemOrdering := MemOrdering.release

/-- Run a sequence of `push` calls, collecting the individual results and
threading the shared state. -/
def pushAll {T : Type} : RingBuffer T → List T →
    List (Except T Unit) × RingBuffer T
  | rb, [] => ([], rb)
  | rb, v :: vs =>
    let r := Producer.push rb v
    let rest := pushAll r.2 vs
    (r.1 :: rest.1, rest.2)

/-- Run `n` consecutive `pop` calls, collecting the individual results and
threading the shared state. -/
def popN {T : Type} : RingBuffer T → Nat → List (Option T) × RingBuffer T
  | rb, 0 => ([], rb)
  | rb, n + 1 =>
    let r := Consumer.pop rb
    let rest := popN r.2 n
    (r.1 :: rest.1, rest.2)

/-- Strictly alternating execution: for each value in the list, one `push`
immediately followed by one `pop`, collecting both results of every pair. -/
def pushPopPairs {T : Type} : RingBuffer T → List T →
    List (Except T Unit × Option T) × RingBuffer T
  | rb, [] => ([], rb)
  | rb, v :: vs =>
    let p := Producer.push rb v
    let q := Consumer.pop p.2
    let rest := pushPopPairs q.2 vs
    ((p.1, q.1) :: rest.1, rest.2)

/-- One public operation on the buffer: a `push` of a given value, or a `pop`. -/
inductive Op (T : Type) where
  | push (v : T)
  | pop
deriving DecidableEq, Repr

/-- The observable result of one operation. -/
def opResult {T : Type} (rb : RingBuffer T) :
    Op T → (Except T Unit ⊕ Option T) × RingBuffer T
  | Op.push v =>
    let r := Producer.push rb v
    (Sum.inl r.1, r.2)
  | Op.pop =>
    let r := Consumer.pop rb
    (Sum.inr r.1, r.2)

/-- Run an arbitrary sequence of operations, collecting every result. -/
def runOps {T : Type} : RingBuffer T → List (Op T) →
    List (Except T Unit ⊕ Option T) × RingBuffer T
  | rb, [] => ([], rb)
  | rb, op :: ops =>
    let r := opResult rb op
    let rest := runOps r.2 ops
    (r.1 :: rest.1, rest.2)

/-- The result an operation gets on a buffer that is simultaneously empty
and full: a push is rejected with its item, a pop returns nothing. -/
def emptyFullResult {T : Type} : Op T → Except T Unit ⊕ Option T
  | Op.push v => Sum.inl (Except.error v)
  | Op.pop => Sum.inr none

/-- The shared state of a buffer of requested capacity `c` after the values
`us ++ vs` have been pushed in order starting from the freshly created state
and the prefix `us` has been popped again: `head` sits after `us`, `tail`
after `us ++ vs`, the remaining cells are still uninitialised. -/
def bufState {T : Type} (c : Nat) (us vs : List T) : RingBuffer T :=
  { head := us.length
    tail := us.length + vs.length
    capacity := c + 1
    slots := (us ++ vs).map some ++
      List.replicate (c + 1 - us.length - vs.length) none }

/-! ### General lemmas about the operations -/

theorem USIZE_pos : 0 < USIZE := by norm_num [USIZE]

/-- `push` on a full buffer: when `(tail + 1) % capacity` (computed as the
code computes it) equals `head`, the item is handed back and nothing changes. -/
theorem push_full {T : Type} (rb : RingBuffer T) (v : T)
    (h : (rb.tail + 1) % USIZE % rb.capacity = rb.head) :
    Producer.push rb v = (Except.error v, rb) := by
  simp [Producer.push, h]

/-- `push` on a non-full buffer: the slot at the old `tail` is written and
`tail` advances. -/
theorem push_ok {T : Type} (rb : RingBuffer T) (v : T)
    (h : (rb.tail + 1) % USIZE % rb.capacity ≠ rb.head) :
    Producer.push rb v =
      (Except.ok (),
        { rb with slots := rb.slots.set rb.tail (some v),
                  tail := (rb.tail + 1) % USIZE % rb.capacity }) := by
  simp [Producer.push, h]

/-- `pop` on an empty buffer: nothing is returned and nothing changes. -/
theorem pop_empty {T : Type} (rb : RingBuffer T) (h : rb.head = rb.tail) :
    Consumer.pop rb = (none, rb) := by
  simp [Consumer.pop, h]

/-- `pop` on a non-empty buffer: the slot at the old `head` is returned and
`head` advances. -/
theorem pop_some {T : Type} (rb : RingBuffer T) (h : rb.head ≠ rb.tail) :
    Consumer.pop rb =
      (rb.slots.getD rb.head none,
        { rb with head := (rb.head + 1) % USIZE % rb.capacity }) := by
  simp [Consumer.pop, h]

/-! ### Claims about the index invariant and frame conditions -/

/-- Claim C4: from any state with `head < capacity` and `tail < capacity`
(as established by `create`), both `push` and `pop` preserve
`head < capacity` and `tail < capacity`, and neither modifies `capacity`. -/
theorem claim_C4 (s : RingBuffer Nat) (v : Nat)
    (hh : s.head < s.capacity) (ht : s.tail < s.capacity) :
    ((Producer.push s v).2.head < s.capacity ∧
      (Producer.push s v).2.tail < s.capacity ∧
      (Producer.push s v).2.capacity = s.capacity) ∧
    ((Consumer.pop s).2.head < s.capacity ∧
      (Consumer.pop s).2.tail < s.capacity ∧
      (Consumer.pop s).2.capacity = s.capacity) := by
  have hcap : 0 < s.capacity := by omega
  constructor
  · by_cases h : (s.tail + 1) % USIZE % s.capacity = s.head
    · rw [push_full s v h]
      exact ⟨hh, ht, rfl⟩
    · rw [push_ok s v h]
      exact ⟨hh, Nat.mod_lt _ hcap, rfl⟩
  · by_cases h : s.head = s.tail
    · rw [pop_empty s h]
      exact ⟨hh, ht, rfl⟩
    · rw [pop_some s h]
      exact ⟨Nat.mod_lt _ hcap, ht, rfl⟩

/-- Witness for C4 at the concrete state `⟨0, 1, 3, [some 1, none, none]⟩`. -/
theorem claim_C4_witness :
    ((Producer.push (⟨0, 1, 3, [some 1, none, none]⟩ : RingBuffer Nat) 9).2.head < 3 ∧
      (Producer.push (⟨0, 1, 3, [some 1, none, none]⟩ : RingBuffer Nat) 9).2.tail < 3 ∧
      (Producer.push (⟨0, 1, 3, [some 1, none, none]⟩ : RingBuffer Nat) 9).2.capacity = 3) ∧
    ((Consumer.pop (⟨0, 1, 3, [some 1, none, none]⟩ : RingBuffer Nat)).2.head < 3 ∧
      (Consumer.pop (⟨0, 1, 3, [some 1, none, none]⟩ : RingBuffer Nat)).2.tail < 3 ∧
      (Consumer.pop (⟨0, 1, 3, [some 1, none, none]⟩ : RingBuffer Nat)).2.capacity = 3) :=
  claim_C4 ⟨0, 1, 3, [some 1, none, none]⟩ 9 (by norm_num) (by norm_num)

/-- Claim C5: when the buffer is full (`(tail + 1) % capacity = head`),
`push` returns the very item back and leaves the whole state unchanged;
when it is empty (`head = tail`), `pop` returns nothing and leaves the
whole state unchanged. -/
theorem claim_C5 (s : RingBuffer Nat) (v : Nat) :
    (s.tail < s.capacity → s.capacity < USIZE →
      (s.tail + 1) % s.capacity = s.head →
      Producer.push s v = (Except.error v, s)) ∧
    (s.head = s.tail → Consumer.pop s = (none, s)) := by
  constructor
  · intro ht hcap hfull
    have h1 : (s.tail + 1) % USIZE = s.tail + 1 := Nat.mod_eq_of_lt (by omega)
    exact push_full s v (by rw [h1, hfull])
  · exact pop_empty s

/-- Witness for C5: a full buffer (`tail = 2`, `head = 0`, `capacity = 3`)
rejects a push unchanged, and an empty buffer (`head = tail = 1`) returns
nothing from a pop unchanged. -/
theorem claim_C5_witness :
    Producer.push (⟨0, 2, 3, [none, none, none]⟩ : RingBuffer Nat) 4 =
      (Except.error 4, ⟨0, 2, 3, [none, none, none]⟩) ∧
    Consumer.pop (⟨1, 1, 3, [none, none, none]⟩ : RingBuffer Nat) =
      (none, ⟨1, 1, 3, [none, none, none]⟩) :=
  ⟨(claim_C5 ⟨0, 2, 3, [none, none, none]⟩ 4).1 (by norm_num)
      (by norm_num [USIZE]) (by norm_num),
    (claim_C5 ⟨1, 1, 3, [none, none, none]⟩ 0).2 rfl⟩

/-- Claim C6: `push` never modifies `head`, `pop` never modifies `tail`,
neither modifies `capacity`; `push` leaves every slot other than the one at
the old `tail` unchanged, `pop` leaves all slots unchanged and a successful
`pop` returns exactly the content of the slot at the old `head`. -/
theorem claim_C6 (s : RingBuffer Nat) (v : Nat) :
    (Producer.push s v).2.head = s.head ∧
    (Producer.push s v).2.capacity = s.capacity ∧
    (∀ i, i ≠ s.tail →
      (Producer.push s v).2.slots.getD i none = s.slots.getD i none) ∧
    (Consumer.pop s).2.tail = s.tail ∧
    (Consumer.pop s).2.capacity = s.capacity ∧
    (Consumer.pop s).2.slots = s.slots ∧
    (s.head ≠ s.tail → (Consumer.pop s).1 = s.slots.getD s.head none) := by
  refine ⟨?_, ?_, ?_, ?_, ?_, ?_, ?_⟩
  · by_cases h : (s.tail + 1) % USIZE % s.capacity = s.head
    · rw [push_full s v h]
    · rw [push_ok s v h]
  · by_cases h : (s.tail + 1) % USIZE % s.capacity = s.head
    · rw [push_full s v h]
    · rw [push_ok s v h]
  · intro i hi
    by_cases h : (s.tail + 1) % USIZE % s.capacity = s.head
    · rw [push_full s v h]
    · rw [push_ok s v h]
      simp only [List.getD_eq_getElem?_getD]
      rw [List.getElem?_set_ne (Ne.symm hi)]
  · by_cases h : s.head = s.tail
    · rw [pop_empty s h]
    · rw [pop_some s h]
  · by_cases h : s.head = s.tail
    · rw [pop_empty s h]
    · rw [pop_some s h]
  · by_cases h : s.head = s.tail
    · rw [pop_empty s h]
    · rw [pop_some s h]
  · intro h
    rw [pop_some s h]

/-- Witness for C6 at the concrete state `⟨0, 1, 3, [some 5, none, none]⟩`
with `i = 0 ≠ tail` and `head = 0 ≠ tail = 1`. -/
theorem claim_C6_witness :
    (Producer.push (⟨0, 1, 3, [some 5, none, none]⟩ : RingBuffer Nat) 9).2.head = 0 ∧
    ((0 : Nat) ≠ 1 ∧
      (Producer.push (⟨0, 1, 3, [some 5, none, none]⟩ : RingBuffer Nat) 9).2.slots.getD 0 none =
        (⟨0, 1, 3, [some 5, none, none]⟩ : RingBuffer Nat).slots.getD 0 none) ∧
    (Consumer.pop (⟨0, 1, 3, [some 5, none, none]⟩ : RingBuffer Nat)).2.tail = 1 ∧
    ((0 : Nat) ≠ 1 ∧
      (Consumer.pop (⟨0, 1, 3, [some 5, none, none]⟩ : RingBuffer Nat)).1 =
        (⟨0, 1, 3, [some 5, none, none]⟩ : RingBuffer Nat).slots.getD 0 none) :=
  ⟨(claim_C6 ⟨0, 1, 3, [some 5, none, none]⟩ 9).1,
    ⟨by norm_num, (claim_C6 ⟨0, 1, 3, [some 5, none, none]⟩ 9).2.2.1 0 (by norm_num)⟩,
    (claim_C6 ⟨0, 1, 3, [some 5, none, none]⟩ 9).2.2.2.1,
    ⟨by norm_num, (claim_C6 ⟨0, 1, 3, [some 5, none, none]⟩ 9).2.2.2.2.2.2 (by norm_num)⟩⟩

/-! ### The memory-ordering annotations -/

/-- Claim C8 (what the code actually annotates): in `Producer::push` the
peer index `head` is loaded with relaxed ordering and the producer's own
index `tail` with acquire ordering — the mirror image of the claimed
discipline — while `Consumer::pop` loads its own `head` relaxed and the
peer `tail` acquire as claimed; both index updates are release stores. -/
theorem claim_C8_orderings :
    pushHeadLoadOrdering = MemOrdering.relaxed ∧
    pushTailLoadOrdering = MemOrdering.acquire ∧
    pushTailStoreOrdering = MemOrdering.release ∧
    popHeadLoadOrdering = MemOrdering.relaxed ∧
    popTailLoadOrdering = MemOrdering.acquire ∧
    popHeadStoreOrdering = MemOrdering.release :=
  ⟨rfl, rfl, rfl, rfl, rfl, rfl⟩

/-! ### Overflow behaviour of `create` -/

/-- Counterexample to claim C9: at `requested_capacity = usize::MAX`
(where `requested_capacity + 1` overflows the machine word) `create` does
not return an overflow error — its unchecked arithmetic wraps,
`real_capacity` becomes `0`, `total_size` collapses to the bare header
size, and the call proceeds to initialise a header with `capacity = 0`
and no slots at all. -/
theorem claim_C9_counterexample :
    USIZE ≤ (USIZE - 1) + 1 ∧
    (Consumer.create Nat (USIZE - 1)).capacity = 0 ∧
    (Consumer.create Nat (USIZE - 1)).slots = [] ∧
    shmemSize (USIZE - 1) 4 = headerSize := by
  have h : USIZE - 1 + 1 = USIZE := by
    have := USIZE_pos
    omega
  refine ⟨by omega, ?_, ?_, ?_⟩
  · simp [Consumer.create, realCapacity, h]
  · simp [Consumer.create, realCapacity, h]
  · simp [shmemSize, realCapacity, h, headerSize]
    norm_num [USIZE]

/-- Claim C9 as amended: when `requested_capacity + 1` overflows the
machine word, `create` does not report an error; the wrapping `usize`
arithmetic yields `real_capacity = 0`, a `total_size` equal to the bare
header size (for any record size), and a header initialised with
`capacity = 0` over an empty slot array. -/
theorem claim_C9 (c recordSize : Nat) (hc : c < USIZE) (hover : USIZE ≤ c + 1) :
    (Consumer.create Nat c).capacity = 0 ∧
    (Consumer.create Nat c).slots = [] ∧
    shmemSize c recordSize = headerSize := by
  have hce : c + 1 = USIZE := by omega
  refine ⟨?_, ?_, ?_⟩
  · simp [Consumer.create, realCapacity, hce]
  · simp [Consumer.create, realCapacity, hce]
  · simp [shmemSize, realCapacity, hce, headerSize]
    norm_num [USIZE]

/-- Witness for the amended C9 at `c = usize::MAX` and the demo record
size `mem::size_of::<u32>() = 4`. -/
theorem claim_C9_witness :
    (Consumer.create Nat (USIZE - 1)).capacity = 0 ∧
    (Consumer.create Nat (USIZE - 1)).slots = [] ∧
    shmemSize (USIZE - 1) 4 = headerSize :=
  claim_C9 (USIZE - 1) 4 (by norm_num [USIZE])
    (by have := USIZE_pos; omega)

/-! ### The degenerate requested capacity 0 -/

/-- The header `create` writes for requested capacity `0`: one sentinel
slot only. -/
theorem create_zero_eq :
    Consumer.create Nat 0 = ⟨0, 0, 1, [none]⟩ := by
  simp [Consumer.create, realCapacity, USIZE]

/-- Claim C10: a buffer of requested capacity `0` is permanently both full
and empty — every `push` hands its item straight back, every `pop` returns
nothing, and no sequence of operations ever changes the state. -/
theorem claim_C10 (ops : List (Op Nat)) (v : Nat) :
    Producer.push (Consumer.create Nat 0) v =
      (Except.error v, Consumer.create Nat 0) ∧
    Consumer.pop (Consumer.create Nat 0) = (none, Consumer.create Nat 0) ∧
    runOps (Consumer.create Nat 0) ops =
      (ops.map emptyFullResult, Consumer.create Nat 0) := by
  have hpush : ∀ w : Nat,
      Producer.push (Consumer.create Nat 0) w =
        (Except.error w, Consumer.create Nat 0) := by
    intro w
    rw [create_zero_eq]
    exact push_full _ w (by norm_num [USIZE])
  have hpop : Consumer.pop (Consumer.create Nat 0) =
      (none, Consumer.create Nat 0) := by
    rw [create_zero_eq]
    exact pop_empty _ rfl
  refine ⟨hpush v, hpop, ?_⟩
  induction ops with
  | nil => simp [runOps]
  | cons op ops ih =>
    cases op with
    | push w => simp [runOps, opResult, hpush w, ih, emptyFullResult]
    | pop => simp [runOps, opResult, hpop, ih, emptyFullResult]

/-! ### The concrete capacity-10 scenario -/

/-- Counterexample to claim C2: on a buffer of requested capacity `10`
(real capacity `11`, ten usable slots) the 10th push — the value `9` —
does NOT fail: it is the last element of the result list and it is
`Ok(())`; and the 10th pop is not `None` but `Some 9`. -/
theorem claim_C2_counterexample :
    (pushAll (Consumer.create Nat 10) [0, 1, 2, 3, 4, 5, 6, 7, 8, 9]).1.getLast? =
      some (Except.ok ()) ∧
    (popN (pushAll (Consumer.create Nat 10) [0, 1, 2, 3, 4, 5, 6, 7, 8, 9]).2 10).1.getLast? =
      some (some 9) := by
  constructor <;> rfl

/-- Claim C2 as amended: with requested capacity `10` all ten pushes of
`0..9` succeed, an eleventh push (value `10`) fails as full, ten pops then
return `0..9` in order, and the eleventh pop returns nothing. -/
theorem claim_C2 :
    (pushAll (Consumer.create Nat 10) [0, 1, 2, 3, 4, 5, 6, 7, 8, 9]).1 =
      List.replicate 10 (Except.ok ()) ∧
    (Producer.push
      (pushAll (Consumer.create Nat 10) [0, 1, 2, 3, 4, 5, 6, 7, 8, 9]).2 10).1 =
      Except.error 10 ∧
    (popN (pushAll (Consumer.create Nat 10) [0, 1, 2, 3, 4, 5, 6, 7, 8, 9]).2 11).1 =
      [some 0, some 1, some 2, some 3, some 4, some 5, some 6, some 7,
        some 8, some 9, none] := by
  refine ⟨rfl, rfl, rfl⟩

/-! ### Filling and draining a freshly created buffer -/

/-- A freshly created buffer is the `bufState` with nothing pushed and
nothing popped (requires `requested_capacity + 1` not to wrap). -/
theorem create_eq_bufState (c : Nat) (h : c + 1 < USIZE) :
    Consumer.create Nat c = bufState c [] [] := by
  simp [Consumer.create, bufState, realCapacity, Nat.mod_eq_of_lt h]

/-- Pushing onto a partially filled fresh buffer with fewer than `c` values
in it succeeds and appends the value. -/
theorem push_bufState {T : Type} (c : Nat) (ws : List T) (v : T)
    (hU : c + 1 < USIZE) (hlt : ws.length < c) :
    Producer.push (bufState c [] ws) v =
      (Except.ok (), bufState c [] (ws ++ [v])) := by
  have h1 : (ws.length + 1) % USIZE = ws.length + 1 := Nat.mod_eq_of_lt (by omega)
  have h2 : (ws.length + 1) % (c + 1) = ws.length + 1 := Nat.mod_eq_of_lt (by omega)
  have hrep : c + 1 - ws.length = (c - ws.length) + 1 := by omega
  rw [push_ok]
  · simp [bufState, h1, h2, hrep, List.replicate_succ, List.set_append_right,
      List.append_assoc]
  · simp [bufState, h1, h2]

/-- Pushing onto a fresh buffer already holding `c` values is rejected. -/
theorem push_bufState_full {T : Type} (c : Nat) (ws : List T) (v : T)
    (hU : c + 1 < USIZE) (hlen : ws.length = c) :
    Producer.push (bufState c [] ws) v = (Except.error v, bufState c [] ws) := by
  apply push_full
  simp [bufState, hlen, Nat.mod_eq_of_lt hU]

/-- Pushing a whole list of at most `c - ws.length` further values onto a
partially filled fresh buffer succeeds step by step. -/
theorem pushAll_bufState {T : Type} (c : Nat) (hU : c + 1 < USIZE) (vs : List T) :
    ∀ ws : List T, ws.length + vs.length ≤ c →
    pushAll (bufState c [] ws) vs =
      (vs.map (fun _ => Except.ok ()), bufState c [] (ws ++ vs)) := by
  induction vs with
  | nil => intro ws h; simp [pushAll]
  | cons v vs ih =>
    intro ws h
    have hlt : ws.length < c := by simp at h; omega
    have hrec := ih (ws ++ [v]) (by simp at h ⊢; omega)
    simp [pushAll, push_bufState c ws v hU hlt, hrec, List.append_assoc]

/-- Popping from a non-drained buffer returns the next pushed value. -/
theorem pop_bufState {T : Type} (c : Nat) (us : List T) (v : T) (vs : List T)
    (hU : c + 1 < USIZE) (hle : us.length + (vs.length + 1) ≤ c) :
    Consumer.pop (bufState c us (v :: vs)) =
      (some v, bufState c (us ++ [v]) vs) := by
  have hne : (bufState c us (v :: vs)).head ≠ (bufState c us (v :: vs)).tail := by
    simp [bufState]
  rw [pop_some _ hne]
  have h1 : (us.length + 1) % USIZE = us.length + 1 := Nat.mod_eq_of_lt (by omega)
  have h2 : (us.length + 1) % (c + 1) = us.length + 1 := Nat.mod_eq_of_lt (by omega)
  have hget : (bufState c us (v :: vs)).slots.getD (bufState c us (v :: vs)).head none
      = some v := by
    simp only [bufState, List.getD_eq_getElem?_getD, List.map_append,
      List.append_assoc]
    rw [List.getElem?_append_right (by simp)]
    simp
  rw [hget]
  simp [bufState, h1, h2, List.append_assoc]
  omega

/-- Popping from a drained buffer returns nothing. -/
theorem pop_bufState_empty {T : Type} (c : Nat) (us : List T) :
    Consumer.pop (bufState c us []) = (none, bufState c us []) := by
  apply pop_empty
  simp [bufState]

/-- Draining all remaining values pops them in FIFO order. -/
theorem popN_bufState {T : Type} (c : Nat) (hU : c + 1 < USIZE) (vs : List T) :
    ∀ us : List T, us.length + vs.length ≤ c →
    popN (bufState c us vs) vs.length =
      (vs.map some, bufState c (us ++ vs) []) := by
  induction vs with
  | nil => intro us h; simp [popN]
  | cons v vs ih =>
    intro us h
    have hle : us.length + (vs.length + 1) ≤ c := by simp at h; omega
    have hrec := ih (us ++ [v]) (by simp at h ⊢; omega)
    simp [popN, pop_bufState c us v vs hU hle, hrec, List.append_assoc]

/-- Claim C1: for every requested capacity `c ≥ 1` (with `c + 1`
representable in `usize`), a freshly created buffer pops nothing, the
first `c` pushes all succeed, and the `(c + 1)`-th push is rejected with
its item. -/
theorem claim_C1 (c : Nat) (hc : 1 ≤ c) (hU : c + 1 < USIZE)
    (vs : List Nat) (hlen : vs.length = c) (w : Nat) :
    Consumer.pop (Consumer.create Nat c) = (none, Consumer.create Nat c) ∧
    (pushAll (Consumer.create Nat c) vs).1 = vs.map (fun _ => Except.ok ()) ∧
    (Producer.push (pushAll (Consumer.create Nat c) vs).2 w).1 =
      Except.error w := by
  have hcr := create_eq_bufState c hU
  have hall := pushAll_bufState c hU vs [] (by simp [hlen])
  refine ⟨?_, ?_, ?_⟩
  · rw [hcr]
    exact pop_bufState_empty c []
  · rw [hcr, hall]
  · rw [hcr, hall]
    simp [push_bufState_full c vs w hU hlen]

/-- Witness for C1 at `c = 2` with pushed values `5, 6` and rejected
value `7`. -/
theorem claim_C1_witness :
    Consumer.pop (Consumer.create Nat 2) = (none, Consumer.create Nat 2) ∧
    (pushAll (Consumer.create Nat 2) [5, 6]).1 =
      [5, 6].map (fun _ => Except.ok ()) ∧
    (Producer.push (pushAll (Consumer.create Nat 2) [5, 6]).2 7).1 =
      Except.error 7 :=
  claim_C1 2 (by norm_num) (by norm_num [USIZE]) [5, 6] rfl 7

/-- Claim C3: pushing any sequence of `n ≤ c` values into a fresh buffer
succeeds throughout, and `n` pops then return exactly those values in the
same order, each wrapped in `some`. -/
theorem claim_C3 (c : Nat) (hU : c + 1 < USIZE)
    (vs : List Nat) (hlen : vs.length ≤ c) :
    (pushAll (Consumer.create Nat c) vs).1 = vs.map (fun _ => Except.ok ()) ∧
    (popN (pushAll (Consumer.create Nat c) vs).2 vs.length).1 = vs.map some := by
  have hcr := create_eq_bufState c hU
  have hall := pushAll_bufState c hU vs [] (by simp [hlen])
  have hpop := popN_bufState c hU vs [] (by simp [hlen])
  refine ⟨?_, ?_⟩
  · rw [hcr, hall]
  · rw [hcr, hall]
    simp [hpop]

/-- Witness for C3 at `c = 3` with pushed values `4, 5`. -/
theorem claim_C3_witness :
    (pushAll (Consumer.create Nat 3) [4, 5]).1 =
      [4, 5].map (fun _ => Except.ok ()) ∧
    (popN (pushAll (Consumer.create Nat 3) [4, 5]).2 2).1 = [4, 5].map some :=
  claim_C3 3 (by norm_num [USIZE]) [4, 5] (by norm_num)

/-! ### Alternating push/pop pairs and wraparound -/

/-- One push/pop pair on an empty buffer whose indices sit at `t`: the push
succeeds into slot `t`, the pop returns the pushed value, and both indices
end up at `(t + 1) % capacity`. -/
theorem pushPop_pair {T : Type} (c t : Nat) (slots : List (Option T)) (v : T)
    (hc : 1 ≤ c) (hU : c + 1 < USIZE) (ht : t < c + 1)
    (hlen : slots.length = c + 1) :
    Producer.push (⟨t, t, c + 1, slots⟩ : RingBuffer T) v =
      (Except.ok (), ⟨t, (t + 1) % (c + 1), c + 1, slots.set t (some v)⟩) ∧
    Consumer.pop (⟨t, (t + 1) % (c + 1), c + 1, slots.set t (some v)⟩ : RingBuffer T) =
      (some v, ⟨(t + 1) % (c + 1), (t + 1) % (c + 1), c + 1,
        slots.set t (some v)⟩) := by
  have h1 : (t + 1) % USIZE = t + 1 := Nat.mod_eq_of_lt (by omega)
  have hne : (t + 1) % (c + 1) ≠ t := by
    rcases Nat.lt_or_ge t c with h | h
    · rw [Nat.mod_eq_of_lt (by omega)]
      omega
    · have htc : t = c := by omega
      subst htc
      rw [Nat.mod_self]
      omega
  constructor
  · rw [push_ok _ v (by simpa [h1] using hne)]
    simp [h1]
  · rw [pop_some _ (by simpa using Ne.symm hne)]
    have hget : (slots.set t (some v))[t]? = some (some v) :=
      List.getElem?_set_self (by simpa [hlen] using ht)
    simp [hget, h1]

/-- Any number of strictly alternating push/pop pairs starting from an
empty buffer succeeds pair by pair and ends in an empty buffer again. -/
theorem pushPopPairs_cycle {T : Type} (c : Nat) (hc : 1 ≤ c)
    (hU : c + 1 < USIZE) (vs : List T) :
    ∀ (t : Nat) (slots : List (Option T)), t < c + 1 → slots.length = c + 1 →
    ∃ t2 slots2,
      pushPopPairs (⟨t, t, c + 1, slots⟩ : RingBuffer T) vs =
        (vs.map (fun v => (Except.ok (), some v)), ⟨t2, t2, c + 1, slots2⟩) ∧
      t2 < c + 1 ∧ slots2.length = c + 1 := by
  induction vs with
  | nil =>
    intro t slots ht hlen
    exact ⟨t, slots, by simp [pushPopPairs], ht, hlen⟩
  | cons v vs ih =>
    intro t slots ht hlen
    obtain ⟨hpush, hpop⟩ := pushPop_pair c t slots v hc hU ht hlen
    have hnt : (t + 1) % (c + 1) < c + 1 := Nat.mod_lt _ (by omega)
    have hlen2 : (slots.set t (some v)).length = c + 1 := by simp [hlen]
    obtain ⟨t2, slots2, heq, ht2, hl2⟩ :=
      ih ((t + 1) % (c + 1)) (slots.set t (some v)) hnt hlen2
    exact ⟨t2, slots2, by simp [pushPopPairs, hpush, hpop, heq], ht2, hl2⟩

/-- Claim C7: `k * c` push/pop pairs in strict alternation on a fresh
buffer succeed at every step (every push `Ok`, every pop `Some` of the
value just pushed), leave the buffer empty (`head = tail`, a pop returns
nothing), and a further push then succeeds. -/
theorem claim_C7 (c k : Nat) (vs : List Nat) (hc : 1 ≤ c)
    (hU : c + 1 < USIZE) (hlen : vs.length = k * c) (w : Nat) :
    (pushPopPairs (Consumer.create Nat c) vs).1 =
      vs.map (fun v => (Except.ok (), some v)) ∧
    (pushPopPairs (Consumer.create Nat c) vs).2.head =
      (pushPopPairs (Consumer.create Nat c) vs).2.tail ∧
    (Consumer.pop (pushPopPairs (Consumer.create Nat c) vs).2).1 = none ∧
    (Producer.push (pushPopPairs (Consumer.create Nat c) vs).2 w).1 =
      Except.ok () := by
  have hcr : Consumer.create Nat c =
      (⟨0, 0, c + 1, List.replicate (c + 1) none⟩ : RingBuffer Nat) := by
    simp [Consumer.create, realCapacity, Nat.mod_eq_of_lt hU]
  obtain ⟨t2, slots2, heq, ht2, hl2⟩ :=
    pushPopPairs_cycle c hc hU vs 0 (List.replicate (c + 1) none)
      (by omega) (by simp)
  rw [hcr, heq]
  refine ⟨rfl, rfl, ?_, ?_⟩
  · rw [pop_empty _ rfl]
  · rw [(pushPop_pair c t2 slots2 w hc hU ht2 hl2).1]

/-- Witness for C7 at `c = 1`, `k = 2`, pair values `4, 5`, further
push `9`. -/
theorem claim_C7_witness :
    (pushPopPairs (Consumer.create Nat 1) [4, 5]).1 =
      [4, 5].map (fun v => (Except.ok (), some v)) ∧
    (pushPopPairs (Consumer.create Nat 1) [4, 5]).2.head =
      (pushPopPairs (Consumer.create Nat 1) [4, 5]).2.tail ∧
    (Consumer.pop (pushPopPairs (Consumer.create Nat 1) [4, 5]).2).1 = none ∧
    (Producer.push (pushPopPairs (Consumer.create Nat 1) [4, 5]).2 9).1 =
      Except.ok () :=
  claim_C7 1 2 [4, 5] (by norm_num) (by norm_num [USIZE]) rfl 9

end RBuf
